import Mathlib

/-!
# Voile protocol — shallow embedding

A shallow embedding of the Voile protocol's core contract logic:

* `src/contracts/voile-user-account/src/lib.rs` — the user account
  (staked balance, unlock requests, settlement authorization);
* `src/contracts/voile-lp-pool/src/lib.rs` — the LP pool
  (USDC balance, offers, matched deals, settlement recording);
* `src/integration/src/voile_helpers.rs` — the off-chain matching engine
  and the pure pricing calculator.

Miden `Felt` values are field elements modulo `P = 2^64 - 2^32 + 1`,
held in canonical form (`as_int()` returns the canonical representative);
we model them as `Nat` together with explicit mod-`P` addition and
subtraction (`fadd`, `fsub`).  Rust `u64` arithmetic in the helpers is
modelled as `Nat` with an explicit `% 2^64` where a multiplication may
overflow.  A Miden `Word` is four field elements; the contracts only ever
read lane 0, and we model a word as a 4-tuple of naturals, lane 0 being
the first component.  A `StorageMap` keyed by `Word::from([id, off, 0, 0])`
is modelled as a total function `Nat × Nat → Nat` returning the unset
sentinel `0` for never-written keys, exactly as the Miden storage map
does.
-/

namespace Voile

/-- The Miden prime: `2^64 - 2^32 + 1`. -/
def P : Nat := 2 ^ 64 - 2 ^ 32 + 1

/-- `2^64`, the modulus of Rust `u64` arithmetic. -/
def U64 : Nat := 2 ^ 64

/-- Field addition of canonical `Felt` values. -/
def fadd (a b : Nat) : Nat := (a + b) % P

/-- Field subtraction of canonical `Felt` values
(`a - b = a + (P - b)` in the field). -/
def fsub (a b : Nat) : Nat := (a + (P - b % P)) % P

/-- A Miden `Word`: four field elements.  The contracts only use lane 0
(`word[0]`), which is the first component. -/
abbrev MWord := Nat × Nat × Nat × Nat

/-- Storage-map contents: `(entity_id, field_offset) ↦ value`, with `0`
as the unset sentinel. -/
abbrev Store := Nat × Nat → Nat

/-- `StorageMap::set`: point update of a store. -/
def mset (m : Store) (k : Nat × Nat) (v : Nat) : Store :=
  fun k' => if k' = k then v else m k'

@[simp] theorem mset_same (m : Store) (k : Nat × Nat) (v : Nat) :
    mset m k v k = v := by
  simp [mset]

@[simp] theorem mset_other (m : Store) (k k' : Nat × Nat) (v : Nat)
    (h : k' ≠ k) : mset m k v k' = m k' := by
  simp [mset, h]

theorem fadd_eq_of_lt {a b : Nat} (h : a + b < P) : fadd a b = a + b :=
  Nat.mod_eq_of_lt h

theorem fsub_eq_of_le {a b : Nat} (hba : b ≤ a) (ha : a < P) :
    fsub a b = a - b := by
  have hbP : b < P := lt_of_le_of_lt hba ha
  have hb : b % P = b := Nat.mod_eq_of_lt hbP
  unfold fsub
  rw [hb]
  have h1 : a + (P - b) = P + (a - b) := by omega
  rw [h1, Nat.add_mod_left]
  exact Nat.mod_eq_of_lt (by omega)

/-! ## Protocol constants (`voile_helpers.rs`, `lib.rs` constant blocks) -/

/-- Default advance fee: 5% = 500 basis points. -/
def DEFAULT_ADVANCE_FEE_BPS : Nat := 500

/-- Default APR: 10% = 1000 basis points. -/
def DEFAULT_APR_BPS : Nat := 1000

/-- Default cooldown: 14 days in seconds. -/
def DEFAULT_COOLDOWN_SECONDS : Nat := 14 * 24 * 60 * 60

/-- Protocol fee split: 20% to Voile. -/
def PROTOCOL_FEE_BPS : Nat := 2000

/-- LP fee split: 80% to LP. -/
def LP_FEE_BPS : Nat := 8000

/-- 1 USDC in raw units (6 decimals). -/
def ONE_USDC : Nat := 1000000

/-! ## User account contract (`voile-user-account/src/lib.rs`)

State: slot 0 is the `unlock_requests` storage map, slot 1 the
`staked_balance` value, slot 2 the `request_counter`. -/

/-- The `VoileUserAccount` component state. -/
structure UserAccount where
  unlock_requests : Store
  staked_balance : Nat
  request_counter : Nat

namespace UserAccount

/-- `lock_staked_assets`: debit the staked balance if sufficient;
returns the success flag and the updated state. -/
def lock_staked_assets (s : UserAccount) (amount : Nat) :
    Bool × UserAccount :=
  if s.staked_balance < amount then (false, s)
  else (true, { s with staked_balance := fsub s.staked_balance amount })

/-- `create_unlock_request`: asserts the lock succeeds (`none` models the
aborted transaction on `assert!` failure), allocates the next request id,
stores the commitment's lane 0 at offset 0, and returns the id.
Only the commitment is stored — the source comment reads
"only the commitment is stored, not the details". -/
def create_unlock_request (s : UserAccount) (amount : Nat)
    (_cooldown_end_timestamp : Nat) (request_commitment : MWord)
    (_nullifier_secret : Nat) : Option (UserAccount × Nat) :=
  let (ok, s1) := s.lock_staked_assets amount
  if !ok then none
  else
    let request_id := s1.request_counter
    let s2 := { s1 with request_counter := fadd request_id 1 }
    let s3 := { s2 with
      unlock_requests :=
        mset s2.unlock_requests (request_id, 0) request_commitment.1 }
    some (s3, request_id)

/-- `get_request_commitment`. -/
def get_request_commitment (s : UserAccount) (request_id : Nat) : Nat :=
  s.unlock_requests (request_id, 0)

/-- `mark_request_matched`: if the request's commitment is unset, fail;
otherwise store the LP commitment at offset 1 and the settlement note
hash at offset 2. -/
def mark_request_matched (s : UserAccount) (request_id : Nat)
    (lp_commitment : MWord) (settlement_note_hash : MWord) :
    Bool × UserAccount :=
  if s.unlock_requests (request_id, 0) = 0 then (false, s)
  else
    let s1 := { s with
      unlock_requests :=
        mset s.unlock_requests (request_id, 1) lp_commitment.1 }
    let s2 := { s1 with
      unlock_requests :=
        mset s1.unlock_requests (request_id, 2) settlement_note_hash.1 }
    (true, s2)

/-- `cancel_request`: fail if the request does not exist or is matched;
otherwise clear the commitment field and credit the `amount` argument
back to the staked balance. -/
def cancel_request (s : UserAccount) (request_id : Nat) (amount : Nat) :
    Bool × UserAccount :=
  if s.unlock_requests (request_id, 0) = 0 then (false, s)
  else if s.unlock_requests (request_id, 1) ≠ 0 then (false, s)
  else
    let s1 := { s with
      unlock_requests := mset s.unlock_requests (request_id, 0) 0 }
    let s2 := { s1 with
      staked_balance := fadd s1.staked_balance amount }
    (true, s2)

/-- `authorize_settlement`: fail if the cooldown has not ended or the
request is unmatched; otherwise set the settled flag (offset 3) to 1.
The `amount` argument is accepted but never used by the source. -/
def authorize_settlement (s : UserAccount) (request_id : Nat)
    (_amount : Nat) (current_timestamp : Nat)
    (cooldown_end_timestamp : Nat) : Bool × UserAccount :=
  if current_timestamp < cooldown_end_timestamp then (false, s)
  else if s.unlock_requests (request_id, 1) = 0 then (false, s)
  else
    (true, { s with
      unlock_requests := mset s.unlock_requests (request_id, 3) 1 })

end UserAccount

/-! ## LP pool contract (`voile-lp-pool/src/lib.rs`) -/

/-- The `VoileLpPool` component state. -/
structure LpPool where
  usdc_balance : Nat
  active_offers : Store
  matched_deals : Store
  settled_deals : Store
  total_earned : Nat
  offer_counter : Nat

namespace LpPool

/-- `create_offer`: asserts the pool balance covers `max_amount`
(`none` models the aborted transaction), allocates the next offer id,
stores commitment lane 0, `max_amount`, `min_amount` and the active flag
at offsets 0–3, and returns the id. -/
def create_offer (s : LpPool) (max_amount min_amount : Nat)
    (offer_commitment : MWord) : Option (LpPool × Nat) :=
  if s.usdc_balance < max_amount then none
  else
    let offer_id := s.offer_counter
    let s1 := { s with offer_counter := fadd offer_id 1 }
    let s2 := { s1 with
      active_offers := mset s1.active_offers (offer_id, 0) offer_commitment.1 }
    let s3 := { s2 with
      active_offers := mset s2.active_offers (offer_id, 1) max_amount }
    let s4 := { s3 with
      active_offers := mset s3.active_offers (offer_id, 2) min_amount }
    let s5 := { s4 with
      active_offers := mset s4.active_offers (offer_id, 3) 1 }
    some (s5, offer_id)

/-- `cancel_offer`: fail if inactive, else set the active flag to 0. -/
def cancel_offer (s : LpPool) (offer_id : Nat) : Bool × LpPool :=
  if s.active_offers (offer_id, 3) ≠ 1 then (false, s)
  else
    (true, { s with active_offers := mset s.active_offers (offer_id, 3) 0 })

/-- `accept_match`: fail (returning the state unchanged) if the offer is
inactive, the advance is outside the offer bounds, or the pool balance is
insufficient; otherwise debit the balance and record the four deal fields
keyed by `deal_id[0]`. -/
def accept_match (s : LpPool) (offer_id : Nat)
    (user_request_commitment : MWord) (advance_amount : Nat)
    (settlement_note_hash : MWord) (deal_id : MWord) : Bool × LpPool :=
  if s.active_offers (offer_id, 3) ≠ 1 then (false, s)
  else
    let max_amount := s.active_offers (offer_id, 1)
    let min_amount := s.active_offers (offer_id, 2)
    if advance_amount > max_amount ∨ advance_amount < min_amount then
      (false, s)
    else if s.usdc_balance < advance_amount then (false, s)
    else
      let s1 := { s with usdc_balance := fsub s.usdc_balance advance_amount }
      let s2 := { s1 with
        matched_deals := mset s1.matched_deals (deal_id.1, 0) user_request_commitment.1 }
      let s3 := { s2 with
        matched_deals := mset s2.matched_deals (deal_id.1, 1) advance_amount }
      let s4 := { s3 with
        matched_deals := mset s3.matched_deals (deal_id.1, 2) settlement_note_hash.1 }
      let s5 := { s4 with
        matched_deals := mset s4.matched_deals (deal_id.1, 3) offer_id }
      (true, s5)

/-- The LP fee computed inside `record_settlement`:
`(fee_earned.as_int() * LP_FEE_BPS) / 10000` in `u64` arithmetic,
then converted back to a field element (the quotient is below `P`,
so the conversion is the identity). -/
def lp_fee_of (fee_earned : Nat) : Nat :=
  fee_earned * LP_FEE_BPS % U64 / 10000

/-- `record_settlement`: fail if the deal's request commitment is unset;
otherwise credit `lp_fee + interest_earned` to `total_earned`, store the
received amount at `(deal_id, 0)` of the settled-deals map, and the
earnings breakdown at offsets 1 and 2.  The pool's `usdc_balance` is not
touched. -/
def record_settlement (s : LpPool) (deal_id : Nat)
    (staked_assets_received fee_earned interest_earned : Nat) :
    Bool × LpPool :=
  if s.matched_deals (deal_id, 0) = 0 then (false, s)
  else
    let lp_fee := lp_fee_of fee_earned
    let total_lp_earnings := fadd lp_fee interest_earned
    let s1 := { s with total_earned := fadd s.total_earned total_lp_earnings }
    let s2 := { s1 with
      settled_deals := mset s1.settled_deals (deal_id, 0) staked_assets_received }
    let s3 := { s2 with
      settled_deals := mset s2.settled_deals (deal_id, 1) lp_fee }
    let s4 := { s3 with
      settled_deals := mset s3.settled_deals (deal_id, 2) interest_earned }
    (true, s4)

/-- `is_deal_settled`: the settled-deals entry at offset 0 is nonzero. -/
def is_deal_settled (s : LpPool) (deal_id : Nat) : Bool :=
  s.settled_deals (deal_id, 0) ≠ 0

/-- `calculate_protocol_fee` (pool helper, 20%). -/
def calculate_protocol_fee (total_fee : Nat) : Nat :=
  total_fee * PROTOCOL_FEE_BPS % U64 / 10000

/-- `calculate_lp_fee` (pool helper, 80%). -/
def calculate_lp_fee (total_fee : Nat) : Nat :=
  total_fee * LP_FEE_BPS % U64 / 10000

end LpPool

/-! ## Pricing calculator (`voile_helpers.rs`, `PricingCalculator`) -/

namespace PricingCalculator

/-- `advance_fee(principal) = principal * 500 / 10000` in `u64`. -/
def advance_fee (principal : Nat) : Nat :=
  principal * DEFAULT_ADVANCE_FEE_BPS % U64 / 10000

/-- `net_advance(principal) = principal - advance_fee(principal)`. -/
def net_advance (principal : Nat) : Nat :=
  principal - advance_fee principal

/-- `apr_interest(principal, days) = principal * 1000 * days / 3650000`
in `u64`. -/
def apr_interest (principal days : Nat) : Nat :=
  principal * DEFAULT_APR_BPS % U64 * days % U64 / (10000 * 365)

/-- `lp_fee_share(total_fee) = total_fee * 8000 / 10000` in `u64`. -/
def lp_fee_share (total_fee : Nat) : Nat :=
  total_fee * LP_FEE_BPS % U64 / 10000

/-- `protocol_fee_share(total_fee) = total_fee * 2000 / 10000` in `u64`. -/
def protocol_fee_share (total_fee : Nat) : Nat :=
  total_fee * PROTOCOL_FEE_BPS % U64 / 10000

end PricingCalculator

/-! ## Matching engine (`voile_helpers.rs`) -/

/-- The private `UnlockRequest` record; the off-chain matching engine
reads only `amount`, but the record carries all fields of the source
struct (the nullifier secret and account id abstracted as naturals). -/
structure UnlockRequest where
  request_id : Nat
  amount : Nat
  cooldown_end_timestamp : Nat
  nullifier_secret : Nat
  user_account_id : Nat
  commitment : MWord
deriving DecidableEq, Repr

/-- `UnlockRequest::net_advance`. -/
def UnlockRequest.net_advance (r : UnlockRequest) : Nat :=
  r.amount - r.amount * DEFAULT_ADVANCE_FEE_BPS % U64 / 10000

/-- The `LpOffer` record. -/
structure LpOffer where
  offer_id : Nat
  lp_account_id : Nat
  max_amount : Nat
  min_amount : Nat
  custom_apr_bps : Option Nat
  commitment : MWord
  is_active : Bool
deriving DecidableEq, Repr

/-- `LpOffer::can_match`: active and the request amount within bounds. -/
def LpOffer.can_match (o : LpOffer) (request_amount : Nat) : Bool :=
  o.is_active && decide (request_amount ≥ o.min_amount)
    && decide (request_amount ≤ o.max_amount)

/-- The effective APR used as the sort key in `find_matches`:
`custom_apr_bps.unwrap_or(DEFAULT_APR_BPS)`. -/
def effApr (o : LpOffer) : Nat :=
  o.custom_apr_bps.getD DEFAULT_APR_BPS

/-- A matched deal as built by `MatchedDeal::new`; the randomly drawn
`deal_id` is passed in explicitly (the source draws it from an RNG). -/
structure MatchedDeal where
  deal_id : MWord
  request : UnlockRequest
  offer : LpOffer
  advance_amount : Nat
  settlement_note_hash : MWord
  advance_note_hash : MWord
  matched_at : Nat
  is_settled : Bool
deriving DecidableEq, Repr

/-- `MatchedDeal::new request offer` with the drawn `deal_id`. -/
def MatchedDeal.new (request : UnlockRequest) (offer : LpOffer)
    (deal_id : MWord) : MatchedDeal :=
  { deal_id := deal_id
    request := request
    offer := offer
    advance_amount := request.net_advance
    settlement_note_hash := (0, 0, 0, 0)
    advance_note_hash := (0, 0, 0, 0)
    matched_at := 0
    is_settled := false }

/-- Stable insertion by effective APR: the incoming element (which came
earlier in the input than everything already placed) goes before the
first element of greater-or-equal key, so elements of equal key keep
their input order. -/
def insertByApr (x : LpOffer) : List LpOffer → List LpOffer
  | [] => [x]
  | y :: ys =>
      if effApr y < effApr x then y :: insertByApr x ys else x :: y :: ys

/-- Stable sort by effective APR (stable insertion sort; extensionally
equal to any stable sort with this key, hence to the source's
`sort_by`). -/
def sortByApr : List LpOffer → List LpOffer
  | [] => []
  | x :: xs => insertByApr x (sortByApr xs)

/-- `MatchingEngine::find_matches`: filter the offers that can match the
request's amount, then stably sort ascending by effective APR. -/
def find_matches (request : UnlockRequest) (offers : List LpOffer) :
    List LpOffer :=
  sortByApr (offers.filter (fun o => o.can_match request.amount))

/-- `MatchingEngine::match_request`: build a deal from the first element
of `find_matches`, or return `none` when no offer is eligible. -/
def match_request (request : UnlockRequest) (offers : List LpOffer)
    (deal_id : MWord) : Option MatchedDeal :=
  match (find_matches request offers).head? with
  | some best_offer => some (MatchedDeal.new request best_offer deal_id)
  | none => none

end Voile

namespace Voile

/-! ## Concrete sample states used by witnesses and counterexamples -/

/-- The all-unset store. -/
def emptyStore : Store := fun _ => 0

/-- A fresh user account with staked balance 10. -/
def ua10 : UserAccount :=
  { unlock_requests := emptyStore, staked_balance := 10, request_counter := 0 }

/-- A user account holding one existing, unmatched request
(id 0, commitment 9), with staked balance 5. -/
def uaReq : UserAccount :=
  { unlock_requests := mset emptyStore (0, 0) 9
    staked_balance := 5
    request_counter := 1 }

/-- A user account whose request 0 has been matched
(lp commitment 3, settlement note hash 4). -/
def uaMatched : UserAccount :=
  { unlock_requests := mset (mset (mset emptyStore (0, 0) 9) (0, 1) 3) (0, 2) 4
    staked_balance := 5
    request_counter := 1 }

/-- A fresh pool with balance 1000. -/
def pool0 : LpPool :=
  { usdc_balance := 1000, active_offers := emptyStore
    matched_deals := emptyStore, settled_deals := emptyStore
    total_earned := 0, offer_counter := 0 }

/-- A pool holding one active offer (id 0, commitment 11, max 500,
min 100). -/
def pool1 : LpPool :=
  { usdc_balance := 1000
    active_offers :=
      mset (mset (mset (mset emptyStore (0, 0) 11) (0, 1) 500) (0, 2) 100)
        (0, 3) 1
    matched_deals := emptyStore, settled_deals := emptyStore
    total_earned := 0, offer_counter := 1 }

/-- A pool holding one matched deal (deal id 7, request commitment 5). -/
def poolDeal : LpPool :=
  { usdc_balance := 800, active_offers := emptyStore
    matched_deals := mset emptyStore (7, 0) 5
    settled_deals := emptyStore
    total_earned := 0, offer_counter := 0 }

/-! ## C10 — the `amount` argument of `authorize_settlement` -/

/-- C10: `authorize_settlement` ignores its `amount` argument: for any two
amounts, result flag and resulting account state are identical, so no
amount is checked or released by this call. -/
theorem authorize_settlement_ignores_amount (s : UserAccount)
    (request_id a1 a2 current_timestamp cooldown_end_timestamp : Nat) :
    s.authorize_settlement request_id a1 current_timestamp
        cooldown_end_timestamp =
      s.authorize_settlement request_id a2 current_timestamp
        cooldown_end_timestamp := rfl

/-! ## C9 — `authorize_settlement` guards -/

/-- C9: `authorize_settlement` returns `false` leaving the state unchanged
whenever the cooldown has not elapsed or the request is unmatched
(`lp_commitment` unset at offset 1); in every other case it sets the
settled flag (offset 3) to 1 and returns `true`. -/
theorem authorize_settlement_spec (s : UserAccount)
    (rid amt ts ce : Nat) :
    (ts < ce ∨ s.unlock_requests (rid, 1) = 0 →
      s.authorize_settlement rid amt ts ce = (false, s)) ∧
    (ce ≤ ts → s.unlock_requests (rid, 1) ≠ 0 →
      s.authorize_settlement rid amt ts ce =
        (true, { s with
          unlock_requests := mset s.unlock_requests (rid, 3) 1 })) := by
  unfold UserAccount.authorize_settlement
  constructor
  · intro h
    rcases h with h | h
    · simp [h]
    · split_ifs with h1 <;> simp [h]
  · intro h1 h2
    rw [if_neg (by omega), if_neg h2]

/-- Witness for C9: on the matched sample account, the call fails before
the cooldown end and succeeds after it, setting the settled flag. -/
theorem authorize_settlement_spec_witness :
    uaMatched.authorize_settlement 0 5 10 20 = (false, uaMatched) ∧
    uaMatched.authorize_settlement 0 5 30 20 =
      (true, { uaMatched with
        unlock_requests := mset uaMatched.unlock_requests (0, 3) 1 }) :=
  ⟨(authorize_settlement_spec uaMatched 0 5 10 20).1 (Or.inl (by decide)),
   (authorize_settlement_spec uaMatched 0 5 30 20).2 (by decide) (by decide)⟩

/-! ## C2 — exactness of the fee split -/

/-- Counterexample to C2: at `total_fee = 1` both truncating shares are 0,
so `lp_fee_share 1 + protocol_fee_share 1 = 0 ≠ 1`; the 8000/2000 split
is not exact for every `total_fee`. -/
theorem fee_split_not_exact_at_one :
    PricingCalculator.lp_fee_share 1 + PricingCalculator.protocol_fee_share 1
      ≠ 1 := by decide

/-- C2 (amended): the truncating 8000/2000 split is exact for every
`total_fee` divisible by 5 (whenever `total_fee * 8000` does not overflow
`u64`); for other fees the truncation drops the remainder. -/
theorem fee_split_exact_on_multiples_of_five (total_fee : Nat)
    (h5 : 5 ∣ total_fee) (hov : total_fee * LP_FEE_BPS < U64) :
    PricingCalculator.lp_fee_share total_fee +
        PricingCalculator.protocol_fee_share total_fee = total_fee := by
  obtain ⟨k, rfl⟩ := h5
  unfold PricingCalculator.lp_fee_share PricingCalculator.protocol_fee_share
  unfold LP_FEE_BPS PROTOCOL_FEE_BPS at *
  have hov2 : 5 * k * 2000 < U64 := by omega
  rw [Nat.mod_eq_of_lt hov, Nat.mod_eq_of_lt hov2]
  have e1 : 5 * k * 8000 = 10000 * (4 * k) := by ring
  have e2 : 5 * k * 2000 = 10000 * k := by ring
  rw [e1, e2, Nat.mul_div_cancel_left _ (by norm_num),
    Nat.mul_div_cancel_left _ (by norm_num)]
  omega

/-- Witness for C2 (amended) at `total_fee = 100 USDC`: the split is
80 USDC + 20 USDC = 100 USDC. -/
theorem fee_split_exact_witness :
    5 ∣ 100 * ONE_USDC ∧ 100 * ONE_USDC * LP_FEE_BPS < U64 ∧
    PricingCalculator.lp_fee_share (100 * ONE_USDC) +
        PricingCalculator.protocol_fee_share (100 * ONE_USDC) =
      100 * ONE_USDC :=
  ⟨by decide, by decide,
   fee_split_exact_on_multiples_of_five (100 * ONE_USDC) (by decide)
     (by decide)⟩

end Voile

namespace Voile

/-! ## C7 — `accept_match` guards and atomic effect -/

/-- C7: `accept_match` returns `false` with the pool state unchanged
exactly when the offer is inactive, the advance lies outside
`[min_amount, max_amount]`, or the pool balance is below the advance;
otherwise it returns `true`, debits `usdc_balance` by exactly
`advance_amount`, and writes all four deal fields (user commitment,
advance amount, settlement note hash, offer id) keyed by `deal_id[0]`,
with no other change — the success state is given in full, so the update
is atomic. -/
theorem accept_match_spec (s : LpPool) (offer_id : Nat) (uc : MWord)
    (adv : Nat) (sn did : MWord) (hP : s.usdc_balance < P) :
    (s.accept_match offer_id uc adv sn did = (false, s) ↔
      s.active_offers (offer_id, 3) ≠ 1 ∨
        s.active_offers (offer_id, 1) < adv ∨
        adv < s.active_offers (offer_id, 2) ∨ s.usdc_balance < adv) ∧
    (s.active_offers (offer_id, 3) = 1 →
      adv ≤ s.active_offers (offer_id, 1) →
      s.active_offers (offer_id, 2) ≤ adv → adv ≤ s.usdc_balance →
      s.accept_match offer_id uc adv sn did =
        (true, { s with
          usdc_balance := s.usdc_balance - adv
          matched_deals :=
            mset (mset (mset (mset s.matched_deals (did.1, 0) uc.1)
              (did.1, 1) adv) (did.1, 2) sn.1) (did.1, 3) offer_id })) := by
  unfold LpPool.accept_match
  dsimp only
  split_ifs with h1 h2 h3
  · exact ⟨⟨fun _ => Or.inl h1, fun _ => rfl⟩, fun ha _ _ _ => absurd ha h1⟩
  · refine ⟨⟨fun _ => ?_, fun _ => rfl⟩, fun _ hmax hmin _ => ?_⟩
    · rcases h2 with h2 | h2
      · exact Or.inr (Or.inl h2)
      · exact Or.inr (Or.inr (Or.inl h2))
    · exact absurd h2 (by omega)
  · refine ⟨⟨fun _ => Or.inr (Or.inr (Or.inr h3)), fun _ => rfl⟩,
      fun _ _ _ hbal => absurd h3 (by omega)⟩
  · push_neg at h2
    refine ⟨⟨fun h => by simp at h, fun h => ?_⟩, fun _ _ _ hbal => ?_⟩
    · rcases h with h | h | h | h
      · exact absurd (by omega : s.active_offers (offer_id, 3) = 1) h
      · omega
      · omega
      · omega
    · rw [fsub_eq_of_le (by omega) hP]

/-- Witness for C7: on the sample pool with one active offer
(max 500, min 100) and balance 1000, an advance of 200 succeeds, debits
the balance to 800 and records the four deal fields under deal id 9. -/
theorem accept_match_spec_witness :
    pool1.usdc_balance < P ∧
    pool1.accept_match 0 (7, 0, 0, 0) 200 (8, 0, 0, 0) (9, 0, 0, 0) =
      (true, { pool1 with
        usdc_balance := pool1.usdc_balance - 200
        matched_deals :=
          mset (mset (mset (mset pool1.matched_deals (9, 0) 7)
            (9, 1) 200) (9, 2) 8) (9, 3) 0 }) :=
  ⟨by decide,
   (accept_match_spec pool1 0 (7, 0, 0, 0) 200 (8, 0, 0, 0) (9, 0, 0, 0)
      (by decide)).2 (by decide) (by decide) (by decide) (by decide)⟩

end Voile

namespace Voile

/-! ## C4 — `mark_request_matched` overwrites the stored LP commitment -/

/-- Counterexample to C4: on an account whose request 0 was matched with
LP commitment 3, a second `mark_request_matched` call with commitment 6
replaces the stored value (it becomes 6, no longer 3), so the claim that
a second application does not replace the stored `lp_commitment` is
false. -/
theorem mark_matched_second_call_replaces :
    (UserAccount.mark_request_matched
        (uaReq.mark_request_matched 0 (3, 0, 0, 0) (4, 0, 0, 0)).2 0
        (6, 0, 0, 0) (4, 0, 0, 0)).2.unlock_requests (0, 1) = 6 ∧
    (uaReq.mark_request_matched 0 (3, 0, 0, 0)
        (4, 0, 0, 0)).2.unlock_requests (0, 1) = 3 ∧
    (6 : Nat) ≠ 3 := by decide

/-- C4 (amended): for every existing request (stored commitment nonzero),
`mark_request_matched` succeeds and stores the *supplied* LP commitment
and settlement note hash, overwriting any previously stored values; the
commitment and balance are untouched.  The contract does not enforce the
one-way `Unmatched → Matched` transition: a later call can replace (or,
with a zero word, clear) the stored `lp_commitment`. -/
theorem mark_request_matched_spec (s : UserAccount) (rid : Nat)
    (lp sn : MWord) (h : s.unlock_requests (rid, 0) ≠ 0) :
    (s.mark_request_matched rid lp sn).1 = true ∧
    (s.mark_request_matched rid lp sn).2.unlock_requests (rid, 1) = lp.1 ∧
    (s.mark_request_matched rid lp sn).2.unlock_requests (rid, 2) = sn.1 ∧
    (s.mark_request_matched rid lp sn).2.unlock_requests (rid, 0) =
      s.unlock_requests (rid, 0) ∧
    (s.mark_request_matched rid lp sn).2.staked_balance =
      s.staked_balance := by
  unfold UserAccount.mark_request_matched
  rw [if_neg h]
  refine ⟨rfl, ?_, ?_, ?_, rfl⟩ <;> simp [mset]

/-- Witness for C4 (amended): marking the unmatched sample request stores
LP commitment 3 and note hash 4. -/
theorem mark_request_matched_spec_witness :
    (uaReq.mark_request_matched 0 (3, 0, 0, 0) (4, 0, 0, 0)).1 = true ∧
    (uaReq.mark_request_matched 0 (3, 0, 0, 0)
        (4, 0, 0, 0)).2.unlock_requests (0, 1) = 3 ∧
    (uaReq.mark_request_matched 0 (3, 0, 0, 0)
        (4, 0, 0, 0)).2.unlock_requests (0, 2) = 4 ∧
    (uaReq.mark_request_matched 0 (3, 0, 0, 0)
        (4, 0, 0, 0)).2.unlock_requests (0, 0) =
      uaReq.unlock_requests (0, 0) ∧
    (uaReq.mark_request_matched 0 (3, 0, 0, 0)
        (4, 0, 0, 0)).2.staked_balance = uaReq.staked_balance :=
  mark_request_matched_spec uaReq 0 (3, 0, 0, 0) (4, 0, 0, 0) (by decide)

/-! ## C5 — `cancel_request` credits its `amount` argument -/

/-- Create a request for 5 out of a balance of 10, then cancel it passing
7 as the `amount` argument; returns the cancel flag and the resulting
staked balance. -/
def cancelAfterCreate : Option (Bool × Nat) :=
  match ua10.create_unlock_request 5 99 (9, 0, 0, 0) 3 with
  | some (s1, rid) =>
      some ((s1.cancel_request rid 7).1,
        (s1.cancel_request rid 7).2.staked_balance)
  | none => none

/-- Counterexample to C5: `cancel_request` credits the amount *argument*,
not the amount debited at creation.  Creating a request for 5 (balance
10 → 5) and cancelling it with argument 7 succeeds and leaves balance
12, not the original 10. -/
theorem cancel_request_credits_argument :
    cancelAfterCreate = some (true, 12) ∧ (12 : Nat) ≠ 10 := by decide

/-- C5 (amended): `cancel_request` fails with no state change for every
matched request; for an existing unmatched request it succeeds, zeroes
the stored commitment, and credits exactly the `amount` *argument* back
to the staked balance — which equals the amount debited at creation only
when the caller passes that same value (the source signature takes the
amount as an argument; no amount is stored in the request record). -/
theorem cancel_request_spec (s : UserAccount) (rid amt : Nat) :
    (s.unlock_requests (rid, 1) ≠ 0 →
      s.cancel_request rid amt = (false, s)) ∧
    (s.unlock_requests (rid, 0) ≠ 0 → s.unlock_requests (rid, 1) = 0 →
      (s.cancel_request rid amt).1 = true ∧
      (s.cancel_request rid amt).2.unlock_requests (rid, 0) = 0 ∧
      (s.cancel_request rid amt).2.staked_balance =
        fadd s.staked_balance amt) := by
  unfold UserAccount.cancel_request
  constructor
  · intro h
    split_ifs with h1
    · rfl
    · rfl
  · intro h1 h2
    rw [if_neg h1, if_neg (by simp [h2])]
    exact ⟨rfl, by simp [mset], rfl⟩

/-- Witness for C5 (amended): cancelling the matched sample request fails
and changes nothing; cancelling the unmatched sample request with
argument 7 succeeds and credits 7. -/
theorem cancel_request_spec_witness :
    uaMatched.cancel_request 0 7 = (false, uaMatched) ∧
    ((uaReq.cancel_request 0 7).1 = true ∧
      (uaReq.cancel_request 0 7).2.unlock_requests (0, 0) = 0 ∧
      (uaReq.cancel_request 0 7).2.staked_balance =
        fadd uaReq.staked_balance 7) :=
  ⟨(cancel_request_spec uaMatched 0 7).1 (by decide),
   (cancel_request_spec uaReq 0 7).2 (by decide) (by decide)⟩

/-! ## C6 — `create_unlock_request` stores only the commitment -/

/-- The full four-field request record right after creating a request for
amount 5 with commitment lane 9. -/
def requestRecordAfterCreate : Option (Nat × Nat × Nat × Nat) :=
  match ua10.create_unlock_request 5 99 (9, 0, 0, 0) 3 with
  | some (s1, rid) =>
      some (s1.unlock_requests (rid, 0), s1.unlock_requests (rid, 1),
        s1.unlock_requests (rid, 2), s1.unlock_requests (rid, 3))
  | none => none

/-- Counterexample to C6: after creating a request for amount 5 the
stored record is `(9, 0, 0, 0)` — only the commitment lane; the amount 5
appears in no field of the request record. -/
theorem create_stores_only_commitment :
    requestRecordAfterCreate = some (9, 0, 0, 0) ∧
    (5 : Nat) ∉ ([9, 0, 0, 0] : List Nat) := by decide

/-- C6 (amended): `create_unlock_request` aborts with no state change
exactly when the amount exceeds the staked balance; on success it debits
the balance by exactly the amount, returns the current counter as the
request id, increments the counter (so ids strictly increase across
successive calls while the counter does not wrap mod `P`), and stores
the commitment — and nothing else — in the request record (the amount is
not stored). -/
theorem create_unlock_request_spec (s : UserAccount) (amt ce ns : Nat)
    (comm : MWord) (hbal : s.staked_balance < P)
    (hctr : s.request_counter + 1 < P) :
    (s.create_unlock_request amt ce comm ns = none ↔
      s.staked_balance < amt) ∧
    (amt ≤ s.staked_balance →
      (s.create_unlock_request amt ce comm ns).map (fun p => p.2) =
          some s.request_counter ∧
      (s.create_unlock_request amt ce comm ns).map
          (fun p => p.1.staked_balance) = some (s.staked_balance - amt) ∧
      (s.create_unlock_request amt ce comm ns).map
          (fun p => p.1.request_counter) = some (s.request_counter + 1) ∧
      (s.create_unlock_request amt ce comm ns).map
          (fun p => p.1.unlock_requests (s.request_counter, 0)) =
        some comm.1 ∧
      ∀ k, k ≠ (s.request_counter, 0) →
        (s.create_unlock_request amt ce comm ns).map
            (fun p => p.1.unlock_requests k) =
          some (s.unlock_requests k)) := by
  unfold UserAccount.create_unlock_request UserAccount.lock_staked_assets
  by_cases hc : s.staked_balance < amt
  · rw [if_pos hc]
    exact ⟨by simp [hc], fun hle => absurd hc (by omega)⟩
  · rw [if_neg hc]
    dsimp only
    refine ⟨by simp [hc], fun hle => ⟨rfl, ?_, ?_, by simp [mset], ?_⟩⟩
    · simp [fsub_eq_of_le hle hbal]
    · simp [fadd_eq_of_lt hctr]
    · intro k hk
      simp [mset, hk]

/-- Witness for C6 (amended): on the fresh sample account (balance 10,
counter 0), creating a request for 5 returns id 0, debits the balance to
5, bumps the counter to 1, and stores the commitment lane 9 at offset 0
while key `(1, 0)` stays unset. -/
theorem create_unlock_request_spec_witness :
    (5 : Nat) ≤ ua10.staked_balance ∧
    (ua10.create_unlock_request 5 99 (9, 0, 0, 0) 3).map (fun p => p.2) =
      some ua10.request_counter ∧
    (ua10.create_unlock_request 5 99 (9, 0, 0, 0) 3).map
        (fun p => p.1.staked_balance) = some (ua10.staked_balance - 5) ∧
    (ua10.create_unlock_request 5 99 (9, 0, 0, 0) 3).map
        (fun p => p.1.request_counter) = some (ua10.request_counter + 1) ∧
    (ua10.create_unlock_request 5 99 (9, 0, 0, 0) 3).map
        (fun p => p.1.unlock_requests (ua10.request_counter, 0)) =
      some 9 ∧
    (ua10.create_unlock_request 5 99 (9, 0, 0, 0) 3).map
        (fun p => p.1.unlock_requests (1, 0)) =
      some (ua10.unlock_requests (1, 0)) := by
  have h := (create_unlock_request_spec ua10 5 99 3 (9, 0, 0, 0)
    (by decide) (by decide)).2 (by decide)
  exact ⟨by decide, h.1, h.2.1, h.2.2.1, h.2.2.2.1,
    h.2.2.2.2 (1, 0) (by decide)⟩

end Voile

namespace Voile

/-! ## Shared effect lemmas for the pool operations -/

/-- Effect of `record_settlement` on an existing deal: it returns `true`
and performs exactly the earnings credit and the three settled-map
writes. -/
theorem record_settlement_effect (s : LpPool) (d staked fee interest : Nat)
    (h : s.matched_deals (d, 0) ≠ 0) :
    s.record_settlement d staked fee interest =
      (true, { s with
        total_earned :=
          fadd s.total_earned (fadd (LpPool.lp_fee_of fee) interest)
        settled_deals :=
          mset (mset (mset s.settled_deals (d, 0) staked)
            (d, 1) (LpPool.lp_fee_of fee)) (d, 2) interest }) := by
  unfold LpPool.record_settlement
  rw [if_neg h]

/-- Effect of `accept_match` when the offer is active, the advance is in
bounds and the balance suffices: debit plus the four deal writes. -/
theorem accept_match_success (s : LpPool) (oid : Nat) (uc : MWord)
    (adv : Nat) (sn did : MWord) (h1 : s.active_offers (oid, 3) = 1)
    (h2 : adv ≤ s.active_offers (oid, 1))
    (h3 : s.active_offers (oid, 2) ≤ adv) (h4 : adv ≤ s.usdc_balance) :
    s.accept_match oid uc adv sn did =
      (true, { s with
        usdc_balance := fsub s.usdc_balance adv
        matched_deals :=
          mset (mset (mset (mset s.matched_deals (did.1, 0) uc.1)
            (did.1, 1) adv) (did.1, 2) sn.1) (did.1, 3) oid }) := by
  unfold LpPool.accept_match
  rw [if_neg (by omega)]
  dsimp only
  rw [if_neg (by omega), if_neg (by omega)]

/-- Effect of `create_offer` when the balance covers `max_amount`. -/
theorem create_offer_success (s : LpPool) (mx mn : Nat) (c : MWord)
    (h : mx ≤ s.usdc_balance) :
    s.create_offer mx mn c =
      some ({ s with
        offer_counter := fadd s.offer_counter 1
        active_offers :=
          mset (mset (mset (mset s.active_offers (s.offer_counter, 0) c.1)
            (s.offer_counter, 1) mx) (s.offer_counter, 2) mn)
            (s.offer_counter, 3) 1 }, s.offer_counter) := by
  unfold LpPool.create_offer
  rw [if_neg (by omega)]

/-! ## C3 — `record_settlement` enforces neither once-only nor cooldown -/

/-- Counterexample to C3: on a pool holding matched deal 7, calling
`record_settlement` twice with fee 50 and interest 10 succeeds both
times and credits the LP earnings twice (`total_earned` goes 0 → 50 →
100), so a second call does mark the deal settled again and credit
earnings a second time. -/
theorem record_settlement_double_credit :
    (LpPool.record_settlement (poolDeal.record_settlement 7 100 50 10).2
        7 100 50 10).1 = true ∧
    (LpPool.record_settlement (poolDeal.record_settlement 7 100 50 10).2
        7 100 50 10).2.total_earned = 100 ∧
    (poolDeal.record_settlement 7 100 50 10).2.total_earned = 50 ∧
    (100 : Nat) ≠ 50 := by decide

/-- C3 (amended): `record_settlement` checks only that the deal exists in
`matched_deals`; it takes no timestamp and never consults the settled
flag, so every call on an existing deal succeeds, credits
`lp_fee + interest` to `total_earned`, and rewrites the settled entry —
and since `matched_deals` is left unchanged, an immediate second call
succeeds and credits the same earnings again.  Once-only settlement and
cooldown gating are not enforced by this operation (the user-account's
`authorize_settlement` carries the cooldown check). -/
theorem record_settlement_unguarded (s : LpPool)
    (d staked fee interest : Nat) (h : s.matched_deals (d, 0) ≠ 0) :
    (s.record_settlement d staked fee interest).1 = true ∧
    (s.record_settlement d staked fee interest).2.total_earned =
      fadd s.total_earned (fadd (LpPool.lp_fee_of fee) interest) ∧
    (s.record_settlement d staked fee interest).2.settled_deals (d, 0) =
      staked ∧
    (s.record_settlement d staked fee interest).2.matched_deals =
      s.matched_deals ∧
    (s.record_settlement d staked fee interest).2.usdc_balance =
      s.usdc_balance ∧
    (LpPool.record_settlement (s.record_settlement d staked fee interest).2
        d staked fee interest).1 = true ∧
    (LpPool.record_settlement (s.record_settlement d staked fee interest).2
        d staked fee interest).2.total_earned =
      fadd (fadd s.total_earned (fadd (LpPool.lp_fee_of fee) interest))
        (fadd (LpPool.lp_fee_of fee) interest) := by
  rw [record_settlement_effect s d staked fee interest h]
  dsimp only
  rw [record_settlement_effect
    { s with
      total_earned :=
        fadd s.total_earned (fadd (LpPool.lp_fee_of fee) interest)
      settled_deals :=
        mset (mset (mset s.settled_deals (d, 0) staked)
          (d, 1) (LpPool.lp_fee_of fee)) (d, 2) interest }
    d staked fee interest h]
  refine ⟨rfl, rfl, ?_, rfl, rfl, rfl, rfl⟩
  simp [mset]

/-- Witness for C3 (amended) on the sample pool with matched deal 7:
the first call succeeds, credits 50, and leaves the deal record intact;
the second call succeeds and doubles the credit. -/
theorem record_settlement_unguarded_witness :
    (poolDeal.record_settlement 7 100 50 10).1 = true ∧
    (poolDeal.record_settlement 7 100 50 10).2.total_earned =
      fadd poolDeal.total_earned
        (fadd (LpPool.lp_fee_of 50) 10) ∧
    (poolDeal.record_settlement 7 100 50 10).2.settled_deals (7, 0) =
      100 ∧
    (poolDeal.record_settlement 7 100 50 10).2.matched_deals =
      poolDeal.matched_deals ∧
    (poolDeal.record_settlement 7 100 50 10).2.usdc_balance =
      poolDeal.usdc_balance ∧
    (LpPool.record_settlement (poolDeal.record_settlement 7 100 50 10).2
        7 100 50 10).1 = true ∧
    (LpPool.record_settlement (poolDeal.record_settlement 7 100 50 10).2
        7 100 50 10).2.total_earned =
      fadd (fadd poolDeal.total_earned (fadd (LpPool.lp_fee_of 50) 10))
        (fadd (LpPool.lp_fee_of 50) 10) :=
  record_settlement_unguarded poolDeal 7 100 50 10 (by decide)

end Voile

namespace Voile

/-! ## C1 — pool balance across create_offer → accept_match →
record_settlement -/

/-- The C1 scenario: create an offer, accept a match against it (using
the freshly allocated offer id), then record the settlement for the
deal; `none` when any step fails. -/
def settlementSequence (s : LpPool) (mx mn : Nat) (c u sn did : MWord)
    (adv staked fee interest : Nat) : Option LpPool :=
  match s.create_offer mx mn c with
  | none => none
  | some (s1, oid) =>
      let r2 := s1.accept_match oid u adv sn did
      if r2.1 then
        let r3 := r2.2.record_settlement did.1 staked fee interest
        if r3.1 then some r3.2 else none
      else none

/-- Counterexample to C1: from balance 1000, an offer (max 500, min 100),
an accepted advance of 200 and a settlement receiving 300 staked assets
with fee 50 and interest 10, the final pool balance is 800 = 1000 − 200;
the claimed value 1000 − 200 + 300 + lp_fee_share(50) + 10 = 1150 is not
reached because `record_settlement` never credits `usdc_balance`. -/
theorem pool_balance_not_credited_at_settlement :
    (settlementSequence pool0 500 100 (11, 0, 0, 0) (5, 0, 0, 0)
        (8, 0, 0, 0) (7, 0, 0, 0) 200 300 50 10).map LpPool.usdc_balance =
      some 800 ∧
    (800 : Nat) ≠
      1000 - 200 + 300 + PricingCalculator.lp_fee_share 50 + 10 := by
  decide

/-- C1 (amended): for every create_offer → accept_match →
record_settlement sequence that succeeds, the final `usdc_balance`
equals the initial balance minus `advance_amount`, exactly — the
settlement credits `lp_fee_share(fee_earned) + interest_earned` to the
separate `total_earned` accumulator and records
`staked_assets_received` in the settled-deals map, but never credits the
pool balance. -/
theorem pool_balance_after_sequence (s : LpPool)
    (mx mn adv staked fee interest : Nat) (c u sn did : MWord)
    (hP : s.usdc_balance < P) (hmx : mx ≤ s.usdc_balance)
    (hmin : mn ≤ adv) (hmax : adv ≤ mx) (hu : u.1 ≠ 0) :
    (settlementSequence s mx mn c u sn did adv staked fee
        interest).map LpPool.usdc_balance =
      some (s.usdc_balance - adv) ∧
    (settlementSequence s mx mn c u sn did adv staked fee
        interest).map LpPool.total_earned =
      some (fadd s.total_earned
        (fadd (LpPool.lp_fee_of fee) interest)) := by
  unfold settlementSequence
  rw [create_offer_success s mx mn c hmx]
  dsimp only
  rw [accept_match_success _ s.offer_counter u adv sn did
    (by simp [mset]) (by simp [mset]; omega) (by simp [mset]; omega)
    (by dsimp only; omega)]
  dsimp only
  rw [record_settlement_effect _ did.1 staked fee interest
    (by simp [mset]; exact hu)]
  dsimp only
  rw [fsub_eq_of_le (by omega) hP]
  exact ⟨rfl, rfl⟩

/-- Witness for C1 (amended): the concrete run from balance 1000 with
advance 200, fee 50 and interest 10 ends with balance 1000 − 200 and
total earnings `lp_fee_of 50 + 10` credited. -/
theorem pool_balance_after_sequence_witness :
    pool0.usdc_balance < P ∧
    (settlementSequence pool0 500 100 (11, 0, 0, 0) (5, 0, 0, 0)
        (8, 0, 0, 0) (7, 0, 0, 0) 200 300 50 10).map LpPool.usdc_balance =
      some (pool0.usdc_balance - 200) ∧
    (settlementSequence pool0 500 100 (11, 0, 0, 0) (5, 0, 0, 0)
        (8, 0, 0, 0) (7, 0, 0, 0) 200 300 50 10).map LpPool.total_earned =
      some (fadd pool0.total_earned (fadd (LpPool.lp_fee_of 50) 10)) :=
  ⟨by decide,
   (pool_balance_after_sequence pool0 500 100 200 300 50 10 (11, 0, 0, 0)
      (5, 0, 0, 0) (8, 0, 0, 0) (7, 0, 0, 0) (by decide) (by decide)
      (by decide) (by decide) (by decide)).1,
   (pool_balance_after_sequence pool0 500 100 200 300 50 10 (11, 0, 0, 0)
      (5, 0, 0, 0) (8, 0, 0, 0) (7, 0, 0, 0) (by decide) (by decide)
      (by decide) (by decide) (by decide)).2⟩

end Voile

namespace Voile

/-! ## C8 — the matching algorithm -/

theorem mem_insertByApr {z x : LpOffer} {l : List LpOffer} :
    z ∈ insertByApr x l ↔ z = x ∨ z ∈ l := by
  induction l with
  | nil => simp [insertByApr]
  | cons y ys ih =>
    unfold insertByApr
    split_ifs with h
    · simp only [List.mem_cons, ih]
      tauto
    · simp only [List.mem_cons]

theorem pairwise_insertByApr {x : LpOffer} {l : List LpOffer}
    (hl : l.Pairwise (fun a b => effApr a ≤ effApr b)) :
    (insertByApr x l).Pairwise (fun a b => effApr a ≤ effApr b) := by
  induction l with
  | nil => simp [insertByApr]
  | cons y ys ih =>
    rw [List.pairwise_cons] at hl
    obtain ⟨hy, hys⟩ := hl
    unfold insertByApr
    split_ifs with h
    · rw [List.pairwise_cons]
      refine ⟨fun z hz => ?_, ih hys⟩
      rcases mem_insertByApr.mp hz with rfl | hz
      · omega
      · exact hy z hz
    · rw [List.pairwise_cons]
      refine ⟨fun z hz => ?_, List.pairwise_cons.mpr ⟨hy, hys⟩⟩
      rcases List.mem_cons.mp hz with rfl | hz
      · omega
      · have := hy z hz
        omega

theorem sortByApr_pairwise (l : List LpOffer) :
    (sortByApr l).Pairwise (fun a b => effApr a ≤ effApr b) := by
  induction l with
  | nil => simp [sortByApr]
  | cons x xs ih => exact pairwise_insertByApr ih

theorem filter_insertByApr (a : Nat) (x : LpOffer) (l : List LpOffer) :
    (insertByApr x l).filter (fun o => effApr o == a) =
      if effApr x = a then x :: l.filter (fun o => effApr o == a)
      else l.filter (fun o => effApr o == a) := by
  induction l with
  | nil => by_cases h : effApr x = a <;> simp [insertByApr, h]
  | cons y ys ih =>
    by_cases hx : effApr x = a
    · rw [if_pos hx]
      unfold insertByApr
      by_cases h : effApr y < effApr x
      · rw [if_pos h]
        have hy : (effApr y == a) = false := by
          simp only [beq_eq_false_iff_ne, ne_eq]
          omega
        simp only [List.filter_cons, hy]
        rw [ih, if_pos hx]
        simp
      · rw [if_neg h]
        have hx2 : (effApr x == a) = true := by simpa using hx
        simp only [List.filter_cons, hx2]
        simp
    · rw [if_neg hx]
      unfold insertByApr
      by_cases h : effApr y < effApr x
      · rw [if_pos h]
        simp only [List.filter_cons]
        rw [ih, if_neg hx]
      · rw [if_neg h]
        have hx2 : (effApr x == a) = false := by simpa using hx
        simp only [List.filter_cons, hx2]
        simp

theorem sortByApr_filter (a : Nat) (l : List LpOffer) :
    (sortByApr l).filter (fun o => effApr o == a) =
      l.filter (fun o => effApr o == a) := by
  induction l with
  | nil => rfl
  | cons x xs ih =>
    show (insertByApr x (sortByApr xs)).filter (fun o => effApr o == a) =
      (x :: xs).filter (fun o => effApr o == a)
    rw [filter_insertByApr a x (sortByApr xs), ih]
    by_cases h : effApr x = a
    · have hx2 : (effApr x == a) = true := by simpa using h
      simp [List.filter_cons, hx2, h]
    · have hx2 : (effApr x == a) = false := by simpa using h
      simp [List.filter_cons, hx2, h]

/-- C8: `find_matches` returns exactly the offers that are active with
`min_amount ≤ request.amount ≤ max_amount` (`can_match`), in ascending
order of effective APR (`custom_apr_bps` if present, else the protocol
default 1000 bps), with ties kept in input order: the result is sorted
(pairwise `effApr ≤`) and, for every APR value `a`, its sublist of
offers with effective APR `a` coincides with the input-order sublist of
the eligible offers — which pins down the stable sort uniquely; and
`match_request` returns the deal built from the first element of that
list, or `none` (without error) when no offer is eligible. -/
theorem find_matches_spec (request : UnlockRequest)
    (offers : List LpOffer) (deal_id : MWord) :
    (find_matches request offers).Pairwise
        (fun a b => effApr a ≤ effApr b) ∧
    (∀ a : Nat, (find_matches request offers).filter
          (fun o => effApr o == a) =
        (offers.filter (fun o => o.can_match request.amount)).filter
          (fun o => effApr o == a)) ∧
    match_request request offers deal_id =
      (find_matches request offers).head?.map
        (fun o => MatchedDeal.new request o deal_id) := by
  refine ⟨sortByApr_pairwise _, fun a => sortByApr_filter a _, ?_⟩
  unfold match_request
  cases (find_matches request offers).head? <;> rfl

end Voile
